import Mathlib

/-!
Verification of the pawn-structure and king-safety subsystem of
Fairy-Stockfish (`src/pawns.cpp`), against its natural-language
specification.

The board query surface (bitboard helpers, relative ranks, square
geometry) is an external collaborator of this subsystem; it is modelled
here on a rectangular `(maxFile+1) × (maxRank+1)` board with squares as
`(file, rank)` pairs of naturals, following the standard Stockfish
semantics of each helper.  Everything from `pawns.cpp` itself is
translated definition by definition.
-/

/-- The two sides. `white` advances toward larger ranks. -/
inductive Color : Type where
  | white : Color
  | black : Color
deriving DecidableEq, Repr

/-- The opponent of a color (`~Us` / `Them` in the source). -/
def Color.other : Color → Color
  | Color.white => Color.black
  | Color.black => Color.white

/-- A square, as a (file, rank) pair of 0-based coordinates. -/
abbrev Sq : Type := Nat × Nat

/-- A two-phase (midgame, endgame) score, `make_score(mg, eg)` in the source. -/
abbrev Score : Type := Int × Int

/-- Scale a score by an integer factor (`Score * int` in the source). -/
def sMul (n : Int) (x : Score) : Score := (n * x.1, n * x.2)

/-- Componentwise score division by an integer (`Score / int`), C++ truncation. -/
def sDiv (x : Score) (n : Int) : Score := (Int.tdiv x.1 n, Int.tdiv x.2 n)

/-- Penalty `Backward = S(9, 24)`. -/
def Backward : Score := (9, 24)

/-- Penalty `Doubled = S(11, 56)`. -/
def Doubled : Score := (11, 56)

/-- Penalty `Isolated = S(5, 15)`. -/
def Isolated : Score := (5, 15)

/-- Penalty `WeakLever = S(0, 56)`. -/
def WeakLever : Score := (0, 56)

/-- Penalty `WeakUnopposed = S(13, 27)`. -/
def WeakUnopposed : Score := (13, 27)

/-- Connected pawn bonus table, indexed by the 0-based relative rank
(`RANK_1 = 0`); entries beyond the listed ones are zero-initialized. -/
def Connected (r : Nat) : Int := [0, 7, 8, 12, 29, 48, 86].getD r 0

/-- `ShelterStrength[d][rank]`, midgame values; rows beyond the four
given ones are never addressed (`d ≤ 3`), ranks beyond the listed
entries are zero-initialized. -/
def ShelterStrength (d r : Nat) : Int :=
  ([[ -6,  81,  93,  58,  39,  18,   25],
    [-43,  61,  35, -49, -29, -11,  -63],
    [-10,  75,  23,  -2,  32,   3,  -45],
    [-39, -13, -29, -52, -48, -67, -166]].getD d []).getD r 0

/-- `UnblockedStorm[d][rank]`, midgame values. -/
def UnblockedStorm (d r : Nat) : Int :=
  ([[ 89, -285, -185, 93, 57,  45,  51],
    [ 44,  -18,  123, 46, 39,  -7,  23],
    [  4,   52,  162, 37,  7, -14,  -2],
    [-10,  -14,   90, 15,  2,  -7, -16]].getD d []).getD r 0

/-- A position, exposing exactly the queries `pawns.cpp` makes of the
board surface: pawn and shogi-pawn placements per color, king squares,
piece counts, castling data, variant flags and the pawn hash key. -/
structure Position : Type where
  maxFile : Nat
  maxRank : Nat
  pawns : Color → Finset Sq
  shogiPawns : Color → Finset Sq
  king : Color → Sq
  countAll : Color → Nat
  capturesToHand : Bool
  mustCapture : Bool
  canCastleK : Color → Bool
  canCastleQ : Color → Bool
  castleKFile : Nat
  castleQFile : Nat
  castlingRightsMask : Color → Nat
  pawnKey : Nat

/-- Modelled from the spec: the set of on-board squares (`board_bb`). -/
def boardSquares (pos : Position) : Finset Sq :=
  Finset.range (pos.maxFile + 1) ×ˢ Finset.range (pos.maxRank + 1)

/-- Modelled from the spec: number of on-board squares, `popcount(board_bb())`. -/
def boardCard (pos : Position) : Nat := (pos.maxFile + 1) * (pos.maxRank + 1)

/-- Modelled from the spec: relative rank under color orientation
(`relative_rank(c, s, max_rank)`), 0-based (`RANK_1 = 0`). -/
def relRank : Color → Nat → Sq → Nat
  | Color.white, _, s => s.2
  | Color.black, maxRank, s => maxRank - s.2

/-- Rank of the square one step forward for the given color (`s + Up`);
meaningful only under the on-board guards the source also uses. -/
def sUpRank : Color → Nat → Nat
  | Color.white, r => r + 1
  | Color.black, r => r - 1

/-- The square one step forward (`s + Up`). -/
def sUp (us : Color) (s : Sq) : Sq := (s.1, sUpRank us s.2)

/-- Rank of the square one step backward (`s - Up`). -/
def sDownRank : Color → Nat → Nat
  | Color.white, r => r - 1
  | Color.black, r => r + 1

/-- The square one step backward (`s - Up`). -/
def sDown (us : Color) (s : Sq) : Sq := (s.1, sDownRank us s.2)

/-- `r'` is strictly ahead of `r` from `c`'s point of view
(the rank test of `forward_ranks_bb(c, ·)`). -/
def strictlyAheadOf : Color → Nat → Nat → Prop
  | Color.white, r, r' => r < r'
  | Color.black, r, r' => r' < r

instance instAheadDec (c : Color) (r r' : Nat) : Decidable (strictlyAheadOf c r r') :=
  match c with
  | Color.white => Nat.decLt r r'
  | Color.black => Nat.decLt r' r

/-- Files `a` and `b` are distinct adjacent files (`adjacent_files_bb`). -/
def adjFile (a b : Nat) : Prop := a = b + 1 ∨ b = a + 1

instance instAdjFileDec (a b : Nat) : Decidable (adjFile a b) := by
  unfold adjFile; infer_instance

/-- Files `a` and `b` are equal or adjacent (the file test of
`passed_pawn_span` / `forward_file_bb ∪ adjacent spans`). -/
def sameOrAdjFile (a b : Nat) : Prop := a = b ∨ adjFile a b

instance instSameOrAdjFileDec (a b : Nat) : Decidable (sameOrAdjFile a b) := by
  unfold sameOrAdjFile; infer_instance

/-- Rank relation of a pawn capture for color `c`: a pawn on rank `r`
attacks squares on rank `r'`. -/
def pawnStepRank : Color → Nat → Nat → Prop
  | Color.white, r, r' => r' = r + 1
  | Color.black, r, r' => r = r' + 1

instance instPawnStepDec (c : Color) (r r' : Nat) : Decidable (pawnStepRank c r r') :=
  match c with
  | Color.white => Nat.decEq _ _
  | Color.black => Nat.decEq _ _

/-- A pawn of color `c` on `p` attacks square `t`
(`PseudoAttacks[c][PAWN][p]` membership). -/
def isPawnAttack (c : Color) (p t : Sq) : Prop :=
  adjFile p.1 t.1 ∧ pawnStepRank c p.2 t.2

instance instIsPawnAttackDec (c : Color) (p t : Sq) : Decidable (isPawnAttack c p t) := by
  unfold isPawnAttack; infer_instance

/-- Square `t` is attacked by at least two pawns of `c` from `ps`
(`pawn_double_attacks_bb<c>(ps)` membership). -/
def isDblAtkBy (c : Color) (ps : Finset Sq) (t : Sq) : Prop :=
  2 ≤ (ps.filter (fun p => isPawnAttack c p t)).card

instance instIsDblAtkDec (c : Color) (ps : Finset Sq) (t : Sq) : Decidable (isDblAtkBy c ps t) := by
  unfold isDblAtkBy; infer_instance

/-- The set of on-board squares attacked by `us`'s pawns,
`pawn_attacks_bb<Us>(ourPawns)`. -/
def attacksOf (pos : Position) (us : Color) : Finset Sq :=
  (boardSquares pos).filter (fun t => ∃ p ∈ pos.pawns us, isPawnAttack us p t)

/-- Square `t` lies in `pawn_attack_span(us, p)`: adjacent file,
strictly ahead. -/
def inAttackSpan (us : Color) (p t : Sq) : Prop :=
  adjFile p.1 t.1 ∧ strictlyAheadOf us p.2 t.2

instance instInAttackSpanDec (us : Color) (p t : Sq) : Decidable (inAttackSpan us p t) := by
  unfold inAttackSpan; infer_instance

/-- Union of `pawn_attack_span(us, s)` over all pawns of `us`
(the accumulated `e->pawnAttacksSpan[Us]`). -/
def spanOf (pos : Position) (us : Color) : Finset Sq :=
  (boardSquares pos).filter (fun t => ∃ p ∈ pos.pawns us, inAttackSpan us p t)

/-- `opposed`: an enemy pawn somewhere strictly ahead on the same file
(`theirPawns & forward_file_bb(Us, s)`). -/
def opposedP (pos : Position) (us : Color) (s : Sq) : Prop :=
  ∃ t ∈ pos.pawns us.other, t.1 = s.1 ∧ strictlyAheadOf us s.2 t.2

instance instOpposedDec (pos : Position) (us : Color) (s : Sq) : Decidable (opposedP pos us s) := by
  unfold opposedP; infer_instance

/-- `stoppers = theirPawns & passed_pawn_span(Us, s)`. -/
def stoppersSet (pos : Position) (us : Color) (s : Sq) : Finset Sq :=
  (pos.pawns us.other).filter (fun t => sameOrAdjFile s.1 t.1 ∧ strictlyAheadOf us s.2 t.2)

/-- `lever = theirPawns & PseudoAttacks[Us][PAWN][s]`. -/
def leverSet (pos : Position) (us : Color) (s : Sq) : Finset Sq :=
  (pos.pawns us.other).filter (fun t => isPawnAttack us s t)

/-- `leverPush`: enemy pawns attacking the forward square, guarded by
`relative_rank(Them, s, max_rank) > RANK_1` exactly as in the source. -/
def leverPushSet (pos : Position) (us : Color) (s : Sq) : Finset Sq :=
  if 0 < relRank us.other pos.maxRank s then
    (pos.pawns us.other).filter (fun t => isPawnAttack us (sUp us s) t)
  else ∅

/-- `doubled`: the own pawn directly behind, guarded by `r > RANK_1`. -/
def doubledSet (pos : Position) (us : Color) (s : Sq) : Finset Sq :=
  if 0 < relRank us pos.maxRank s then
    (pos.pawns us).filter (fun t => t = sDown us s)
  else ∅

/-- `neighbours = ourPawns & adjacent_files_bb(s)`. -/
def neighboursSet (pos : Position) (us : Color) (s : Sq) : Finset Sq :=
  (pos.pawns us).filter (fun t => adjFile s.1 t.1)

/-- `phalanx = neighbours & rank_bb(s)`. -/
def phalanxSet (pos : Position) (us : Color) (s : Sq) : Finset Sq :=
  (neighboursSet pos us s).filter (fun t => t.2 = s.2)

/-- `support = neighbours & rank_bb(s - Up)`, guarded by `r > RANK_1`. -/
def supportSet (pos : Position) (us : Color) (s : Sq) : Finset Sq :=
  if 0 < relRank us pos.maxRank s then
    (neighboursSet pos us s).filter (fun t => t.2 = (sDown us s).2)
  else ∅

/-- Modelled from the spec: the forward square `s + Up` is on-board
(the `is_ok(s + Up)` checks of the source, read as the spec's
"forward square is on-board"). -/
def forwardOk (pos : Position) (us : Color) (s : Sq) : Prop :=
  relRank us pos.maxRank s < pos.maxRank

instance instForwardOkDec (pos : Position) (us : Color) (s : Sq) : Decidable (forwardOk pos us s) := by
  unfold forwardOk; infer_instance

/-- `backward`: behind-all-neighbours test, on-board forward square, and
a stopper on the push squares — line for line the source condition
`!(neighbours & forward_ranks_bb(Them, s)) && is_ok(s + Up) &&
(stoppers & (leverPush | (s + Up)))`. -/
def backwardP (pos : Position) (us : Color) (s : Sq) : Prop :=
  ((neighboursSet pos us s).filter (fun t => strictlyAheadOf us.other s.2 t.2)) = ∅
  ∧ forwardOk pos us s
  ∧ (stoppersSet pos us s ∩ (leverPushSet pos us s ∪ {sUp us s})).Nonempty

instance instBackwardDec (pos : Position) (us : Color) (s : Sq) : Decidable (backwardP pos us s) := by
  unfold backwardP; infer_instance

/-- `shift<Up>(b)`: shift a set of squares one rank forward, dropping
squares that would leave the board. -/
def shiftUpB (pos : Position) (us : Color) (b : Finset Sq) : Finset Sq :=
  (b.filter (fun t => relRank us pos.maxRank t < pos.maxRank)).image (sUp us)

/-- `passed`: the three-way disjunction of the source,
`!(stoppers ^ lever) || (!(stoppers ^ leverPush) && popcount(phalanx) >=
popcount(leverPush)) || (is_ok(s+Up) && stoppers == square_bb(s+Up) &&
r >= RANK_5 && (shift<Up>(support) & ~(theirPawns | doubleAttackThem)))`. -/
def passedP (pos : Position) (us : Color) (s : Sq) : Prop :=
  stoppersSet pos us s = leverSet pos us s
  ∨ (stoppersSet pos us s = leverPushSet pos us s
      ∧ (leverPushSet pos us s).card ≤ (phalanxSet pos us s).card)
  ∨ (forwardOk pos us s ∧ stoppersSet pos us s = {sUp us s}
      ∧ 4 ≤ relRank us pos.maxRank s
      ∧ ∃ q ∈ shiftUpB pos us (supportSet pos us s),
          q ∉ pos.pawns us.other ∧ ¬ isDblAtkBy us.other (pos.pawns us.other) q)

instance instPassedDec (pos : Position) (us : Color) (s : Sq) : Decidable (passedP pos us s) := by
  unfold passedP; infer_instance

/-- The recorded passed pawns: `if (passed && is_ok(s + Up))
e->passedPawns[Us] |= s;` accumulated over the pawn loop. -/
def passedPawnsOf (pos : Position) (us : Color) : Finset Sq :=
  (pos.pawns us).filter (fun s => passedP pos us s ∧ forwardOk pos us s)

/-- The connected-pawn bonus `v` of the source:
`Connected[r] * (phalanx ? 3 : 2) * (r == RANK_2 && captures_to_hand ? 3 : 1)
/ (opposed ? 2 : 1) + 17 * popcount(support)`, then when `r >= RANK_4` and
the pawn count exceeds a quarter of the board,
`v = max(v, popcount(support | phalanx) * 50) / (opposed ? 2 : 1)`. -/
def connectedV (pos : Position) (us : Color) (s : Sq) : Int :=
  let r := relRank us pos.maxRank s
  let dv : Int := if opposedP pos us s then 2 else 1
  let v0 : Int :=
    Int.tdiv (Connected r * (if (phalanxSet pos us s).Nonempty then 3 else 2)
             * (if r = 1 ∧ pos.capturesToHand then 3 else 1)) dv
    + 17 * ((supportSet pos us s).card : Int)
  if 3 ≤ r ∧ boardCard pos / 4 < (pos.pawns us).card then
    Int.tdiv (max v0 (((supportSet pos us s ∪ phalanxSet pos us s).card : Int) * 50)) dv
  else v0

/-- Per-pawn score contribution: the connected / isolated / backward
else-chain of the source loop body, followed by the doubled penalty. -/
def pawnContribution (pos : Position) (us : Color) (s : Sq) : Score :=
  let r := relRank us pos.maxRank s
  let main : Score :=
    if (supportSet pos us s ∪ phalanxSet pos us s).Nonempty then
      (connectedV pos us s, Int.tdiv (connectedV pos us s * ((r : Int) - 2)) 4)
    else if neighboursSet pos us s = ∅ then
      - (sMul (1 + 2 * (if pos.mustCapture then 1 else 0)) Isolated
          + sMul (if opposedP pos us s then 0 else 1) WeakUnopposed)
    else if backwardP pos us s then
      - (Backward + sMul (if opposedP pos us s then 0 else 1) WeakUnopposed)
    else 0
  main - (if (doubledSet pos us s).Nonempty ∧ supportSet pos us s = ∅ then Doubled else 0)

/-- The weak-lever pawns:
`ourPawns & doubleAttackThem & ~(e->pawnAttacks[Us] | e->passedPawns[Us])`. -/
def weakLeverSet (pos : Position) (us : Color) : Finset Sq :=
  (pos.pawns us).filter (fun p =>
    isDblAtkBy us.other (pos.pawns us.other) p
    ∧ p ∉ attacksOf pos us ∧ p ∉ passedPawnsOf pos us)

/-- Shogi pawns with no own shogi pawn on an adjacent file (the second
loop of `evaluate`). -/
def shogiIsolatedSet (pos : Position) (us : Color) : Finset Sq :=
  (pos.shogiPawns us).filter (fun s =>
    (pos.shogiPawns us).filter (fun t => adjFile s.1 t.1) = ∅)

/-- `evaluate<Us>(pos, e)`: the per-side pawn-structure score — the pawn
loop, the weak-lever penalty, the pure-pawn doubling, and the shogi-pawn
isolation penalty. -/
def evaluate (pos : Position) (us : Color) : Score :=
  let base := (pos.pawns us).sum (fun s => pawnContribution pos us s)
  let afterLever := base - sMul ((weakLeverSet pos us).card) WeakLever
  let afterDouble :=
    if pos.countAll us = (pos.pawns us).card then sMul 2 afterLever else afterLever
  afterDouble - sMul ((shogiIsolatedSet pos us).card) (sDiv Isolated 2)

/-- A record of the pawns hash table (`Pawns::Entry`). -/
structure Entry : Type where
  key : Nat
  scores : Color → Score
  passedPawns : Color → Finset Sq
  pawnAttacksSpan : Color → Finset Sq
  pawnAttacks : Color → Finset Sq
  kingSquares : Color → Option Sq
  castlingRights : Color → Nat

/-- The effect on a table slot of the recompute path of `probe`: store
the new key and run `evaluate` for both colors, which rewrites scores,
passed pawns, attacks, attack spans and resets `kingSquares` to
`SQ_NONE`; `castlingRights` is not touched by `evaluate`. -/
def computeEntry (old : Entry) (pos : Position) : Entry :=
  { key := pos.pawnKey
    scores := fun c => evaluate pos c
    passedPawns := fun c => passedPawnsOf pos c
    pawnAttacksSpan := fun c => spanOf pos c
    pawnAttacks := fun c => attacksOf pos c
    kingSquares := fun _ => none
    castlingRights := old.castlingRights }

/-- The per-thread pawns hash table: a fixed number of slots addressed
by `key mod size`. -/
structure Table : Type where
  size : Nat
  entries : Nat → Entry

/-- The cache-hit condition of `probe`: the addressed slot already
stores the position's pawn key and the position has no shogi pawns
(`e->key == key && !pos.pieces(SHOGI_PAWN)`). -/
def probeHit (t : Table) (pos : Position) : Prop :=
  (t.entries (pos.pawnKey % t.size)).key = pos.pawnKey
  ∧ pos.shogiPawns Color.white = ∅ ∧ pos.shogiPawns Color.black = ∅

instance instProbeHitDec (t : Table) (pos : Position) : Decidable (probeHit t pos) := by
  unfold probeHit; infer_instance

/-- `Pawns::probe(pos)`: return the stored entry on a hit, otherwise
overwrite the slot with a freshly computed entry and return it. -/
def probe (t : Table) (pos : Position) : Table × Entry :=
  let idx := pos.pawnKey % t.size
  if probeHit t pos then (t, t.entries idx)
  else
    let e2 := computeEntry (t.entries idx) pos
    ({ size := t.size, entries := fun i => if i = idx then e2 else t.entries i }, e2)

/-- Chebyshev distance between two squares (`distance(s1, s2)`). -/
def chebyshev (a b : Sq) : Nat :=
  max (max (a.1 - b.1) (b.1 - a.1)) (max (a.2 - b.2) (b.2 - a.2))

/-- The per-file shelter/storm contribution of `Entry::evaluate_shelter`,
parameterized by the table-row index `d` chosen for this file. -/
def shelterFileDelta (pos : Position) (us : Color) (ourP theirP : Finset Sq)
    (f : Nat) (d : Nat) : Score :=
  let bf := ourP.filter (fun t => t.1 = f)
  let ourRank : Nat := if h : bf.Nonempty then bf.inf' h (fun t => relRank us pos.maxRank t) else 0
  let bt := theirP.filter (fun t => t.1 = f)
  let theirRank : Nat := if h : bt.Nonempty then bt.inf' h (fun t => relRank us pos.maxRank t) else 0
  let shelterTerm : Score :=
    sMul (if pos.capturesToHand ∧ ourRank ≤ 1 then 2 else 1) (ShelterStrength d ourRank, 0)
  let stormTerm : Score :=
    if ourRank ≠ 0 ∧ ourRank + 1 = theirRank then
      (if theirRank = 2 then ((82 : Int), (82 : Int)) else (0, 0))
    else (UnblockedStorm d theirRank, 0)
  shelterTerm - stormTerm

/-- `Entry::evaluate_shelter(pos, ksq, shelter)` with the row index for
each scanned file supplied by `dIdx`; pawns strictly behind the king are
discarded, the three files around the clamped king file are scanned, and
the result replaces `shelter` only when its midgame value is larger. -/
def shelterWith (pos : Position) (us : Color) (ksq : Sq) (shelter : Score)
    (dIdx : Nat → Nat) : Score :=
  let base := ((pos.pawns Color.white ∪ pos.pawns Color.black
                ∪ pos.shogiPawns Color.white ∪ pos.shogiPawns Color.black)).filter
    (fun t => ¬ strictlyAheadOf us.other ksq.2 t.2)
  let ourP := base.filter (fun t => t ∈ pos.pawns us ∨ t ∈ pos.shogiPawns us)
  let theirP := base.filter (fun t => t ∈ pos.pawns us.other ∨ t ∈ pos.shogiPawns us.other)
  let center := min (max ksq.1 1) (pos.maxFile - 1)
  let bonus := ((5 : Int), (5 : Int))
    + shelterFileDelta pos us ourP theirP (center - 1) (dIdx (center - 1))
    + shelterFileDelta pos us ourP theirP center (dIdx center)
    + shelterFileDelta pos us ourP theirP (center + 1) (dIdx (center + 1))
  if shelter.1 < bonus.1 then bonus else shelter

/-- `Entry::evaluate_shelter` itself: the row index for file `f` is
`min(min(f, max_file - f), FILE_D)` as in the source. -/
def evaluate_shelter (pos : Position) (us : Color) (ksq : Sq) (shelter : Score) : Score :=
  shelterWith pos us ksq shelter (fun f => min (min f (pos.maxFile - f)) 3)

/-- The castling destination square used by `do_king_safety` for the
given rook side file. -/
def castleSq (pos : Position) (us : Color) (file : Nat) : Sq :=
  (file, if us = Color.white then 0 else pos.maxRank)

/-- The shelter part of `do_king_safety`: evaluate at the king square
starting from `(-VALUE_INFINITE, 0)`, then at each available castling
destination, keeping the midgame-best result. -/
def bestShelter (pos : Position) (us : Color) : Score :=
  let s1 := evaluate_shelter pos us (pos.king us) ((-32001 : Int), (0 : Int))
  let s2 := if pos.canCastleK us then
      evaluate_shelter pos us (castleSq pos us pos.castleKFile) s1 else s1
  if pos.canCastleQ us then
      evaluate_shelter pos us (castleSq pos us pos.castleQFile) s2 else s2

/-- The king-to-own-pawn distance of `do_king_safety`:
`minPawnDist = pawns ? 8 : 0`, set to `1` when a pawn is king-adjacent,
otherwise folded down with `min` over all own pawns. -/
def kingPawnFoldDist (pos : Position) (us : Color) : Nat :=
  let ksq := pos.king us
  let pawns := pos.pawns us
  if pawns.Nonempty then
    if (pawns.filter (fun p => chebyshev ksq p = 1)).Nonempty then 1
    else pawns.fold min 8 (fun p => chebyshev ksq p)
  else 0

/-- `Entry::do_king_safety<Us>(pos)`: records the king square and
castling rights into the entry and returns the shelter score minus the
endgame distance term `make_score(0, 16 * minPawnDist)`. -/
def do_king_safety (e : Entry) (pos : Position) (us : Color) : Entry × Score :=
  let ksq := pos.king us
  let e2 : Entry :=
    { key := e.key
      scores := e.scores
      passedPawns := e.passedPawns
      pawnAttacksSpan := e.pawnAttacksSpan
      pawnAttacks := e.pawnAttacks
      kingSquares := fun c => if c = us then some ksq else e.kingSquares c
      castlingRights := fun c => if c = us then pos.castlingRightsMask us else e.castlingRights c }
  (e2, bestShelter pos us - ((0 : Int), 16 * (kingPawnFoldDist pos us : Int)))

/-- Absolute difference between two file indices. -/
def fileDist (a b : Nat) : Nat := max (a - b) (b - a)

/-- Modelled from the claim of C2 as stated: the minimum king-to-pawn
distance, `1` when a pawn is king-adjacent and the sentinel `8` when the
side has no pawns at all. -/
def minPawnDistClaim (pos : Position) (us : Color) : Nat :=
  if h : (pos.pawns us).Nonempty then
    if ∃ p ∈ pos.pawns us, chebyshev (pos.king us) p = 1 then 1
    else (pos.pawns us).inf' h (fun p => chebyshev (pos.king us) p)
  else 8

/-- Modelled from the amended claim of C2: the minimum king-to-pawn
distance capped at `8`, `1` when a pawn is king-adjacent, and `0` when
the side has no pawns at all. -/
def minPawnDistAmended (pos : Position) (us : Color) : Nat :=
  if h : (pos.pawns us).Nonempty then
    if ∃ p ∈ pos.pawns us, chebyshev (pos.king us) p = 1 then 1
    else min 8 ((pos.pawns us).inf' h (fun p => chebyshev (pos.king us) p))
  else 0

/-- Modelled from the claim of C3 as stated: the shelter scan with the
row index taken as the file distance from the king's file, clamped to 3. -/
def evaluate_shelterClaimIdx (pos : Position) (us : Color) (ksq : Sq) (shelter : Score) : Score :=
  shelterWith pos us ksq shelter (fun f => min (fileDist f ksq.1) 3)

/-- Distance of a file from the nearer board edge. -/
def edgeDist (mf f : Nat) : Nat := min f (mf - f)

/-- Modelled from the amended claim of C3: the shelter scan with the row
index taken as the distance from the nearer board edge, clamped to 3. -/
def evaluate_shelterAmended (pos : Position) (us : Color) (ksq : Sq) (shelter : Score) : Score :=
  shelterWith pos us ksq shelter (fun f => min (edgeDist pos.maxFile f) 3)

/-- Modelled from the claim of C4 as stated: weak-lever pawns read with
condition (b) as "the pawn does not itself attack anything". -/
def weakLeverClaimSet (pos : Position) (us : Color) : Finset Sq :=
  (pos.pawns us).filter (fun p =>
    isDblAtkBy us.other (pos.pawns us.other) p
    ∧ (boardSquares pos).filter (fun t => isPawnAttack us p t) = ∅
    ∧ p ∉ passedPawnsOf pos us)

/-- Modelled from the amended claim of C4: weak-lever pawns with
condition (b) as "no own pawn attacks the pawn's square"
(the pawn is unsupported). -/
def weakLeverSpecSet (pos : Position) (us : Color) : Finset Sq :=
  (pos.pawns us).filter (fun p =>
    isDblAtkBy us.other (pos.pawns us.other) p
    ∧ (¬ ∃ q ∈ pos.pawns us, isPawnAttack us q p)
    ∧ p ∉ passedPawnsOf pos us)

/-- The guard of the connected-bonus branch (`support | phalanx`). -/
def connBranch (pos : Position) (us : Color) (s : Sq) : Prop :=
  (supportSet pos us s ∪ phalanxSet pos us s).Nonempty

/-- The guard of the isolated branch in its else-chain context. -/
def isoBranch (pos : Position) (us : Color) (s : Sq) : Prop :=
  ¬ connBranch pos us s ∧ neighboursSet pos us s = ∅

/-- The guard of the backward branch in its else-chain context. -/
def backBranch (pos : Position) (us : Color) (s : Sq) : Prop :=
  ¬ connBranch pos us s ∧ neighboursSet pos us s ≠ ∅ ∧ backwardP pos us s

/-- The residual case: none of the three scoring branches applies. -/
def noBranch (pos : Position) (us : Color) (s : Sq) : Prop :=
  ¬ connBranch pos us s ∧ neighboursSet pos us s ≠ ∅ ∧ ¬ backwardP pos us s

/-- The guard of the doubled penalty (`doubled && !support`). -/
def doubledCond (pos : Position) (us : Color) (s : Sq) : Prop :=
  (doubledSet pos us s).Nonempty ∧ supportSet pos us s = ∅

/-- Modelled from the spec sentence for the connected-pawn bonus (C7):
`Connected[r] × (3 if phalanx else 2) × (3 if rank 2 and captures-to-hand
else 1)`, integer-divided by 2 when opposed, plus `17 × |support|`;
floored at `50 × |support ∪ phalanx|` and halved again when opposed once
the relative rank reaches 4 and the pawn count exceeds a quarter of the
board; midgame = bonus, endgame = `bonus × (r − 2) / 4`; ranks are the
0-based indices of the source (`RANK_2 = 1`). -/
def connectedSpecScore (pos : Position) (us : Color) (s : Sq) : Score :=
  let r := relRank us pos.maxRank s
  let halfIfOpposed : Int := if opposedP pos us s then 2 else 1
  let base : Int :=
    Int.tdiv (Connected r * (if (phalanxSet pos us s).Nonempty then 3 else 2)
      * (if r = 1 ∧ pos.capturesToHand then 3 else 1)) halfIfOpposed
    + 17 * ((supportSet pos us s).card : Int)
  let bonus : Int :=
    if 3 ≤ r ∧ boardCard pos / 4 < (pos.pawns us).card then
      Int.tdiv (max base (((supportSet pos us s ∪ phalanxSet pos us s).card : Int) * 50))
        halfIfOpposed
    else base
  (bonus, Int.tdiv (bonus * ((r : Int) - 2)) 4)
    - (if (doubledSet pos us s).Nonempty ∧ supportSet pos us s = ∅ then Doubled else 0)

/-- Modelled from the claim of C6: the passed condition as worded —
every stopper is a lever, or the stoppers equal the lever pushes and the
phalanx is at least as numerous, or there is exactly one stopper, it
sits on the on-board forward square, the pawn is on at least its 5th
relative rank (0-based index 4) and some advanced support square is
neither occupied by an enemy pawn nor doubly attacked. -/
def passedSpec (pos : Position) (us : Color) (s : Sq) : Prop :=
  (∀ t ∈ stoppersSet pos us s, t ∈ leverSet pos us s)
  ∨ (stoppersSet pos us s = leverPushSet pos us s
      ∧ (leverPushSet pos us s).card ≤ (phalanxSet pos us s).card)
  ∨ ((stoppersSet pos us s).card = 1 ∧ forwardOk pos us s
      ∧ sUp us s ∈ stoppersSet pos us s
      ∧ 4 ≤ relRank us pos.maxRank s
      ∧ ∃ q ∈ shiftUpB pos us (supportSet pos us s),
          q ∉ pos.pawns us.other ∧ ¬ isDblAtkBy us.other (pos.pawns us.other) q)

/-- Modelled from the claim of C8 as stated: backward with "no own pawn
on an adjacent file strictly ahead of it". -/
def backwardClaim (pos : Position) (us : Color) (s : Sq) : Prop :=
  (∀ t ∈ neighboursSet pos us s, ¬ strictlyAheadOf us s.2 t.2)
  ∧ forwardOk pos us s
  ∧ (stoppersSet pos us s ∩ (leverPushSet pos us s ∪ {sUp us s})).Nonempty

/-- Modelled from the amended claim of C8: backward with "no own pawn on
an adjacent file strictly behind it". -/
def backwardSpec (pos : Position) (us : Color) (s : Sq) : Prop :=
  (∀ t ∈ neighboursSet pos us s, ¬ strictlyAheadOf us t.2 s.2)
  ∧ forwardOk pos us s
  ∧ (stoppersSet pos us s ∩ (leverPushSet pos us s ∪ {sUp us s})).Nonempty

instance instPassedSpecDec (pos : Position) (us : Color) (s : Sq) : Decidable (passedSpec pos us s) := by
  unfold passedSpec; infer_instance

instance instBackwardClaimDec (pos : Position) (us : Color) (s : Sq) : Decidable (backwardClaim pos us s) := by
  unfold backwardClaim; infer_instance

instance instBackwardSpecDec (pos : Position) (us : Color) (s : Sq) : Decidable (backwardSpec pos us s) := by
  unfold backwardSpec; infer_instance

instance instConnBranchDec (pos : Position) (us : Color) (s : Sq) : Decidable (connBranch pos us s) := by
  unfold connBranch; infer_instance

instance instIsoBranchDec (pos : Position) (us : Color) (s : Sq) : Decidable (isoBranch pos us s) := by
  unfold isoBranch; infer_instance

instance instBackBranchDec (pos : Position) (us : Color) (s : Sq) : Decidable (backBranch pos us s) := by
  unfold backBranch; infer_instance

instance instNoBranchDec (pos : Position) (us : Color) (s : Sq) : Decidable (noBranch pos us s) := by
  unfold noBranch; infer_instance

instance instDoubledCondDec (pos : Position) (us : Color) (s : Sq) : Decidable (doubledCond pos us s) := by
  unfold doubledCond; infer_instance

/-- Build a color-indexed value from its white and black components. -/
def byColor {α : Type} (w b : α) : Color → α
  | Color.white => w
  | Color.black => b

/-- A concrete 8×8 position with no pawns: kings on e1/e8, no castling,
no variant rules, pawn key 5. -/
def P0 : Position :=
  { maxFile := 7, maxRank := 7
    pawns := byColor ∅ ∅
    shogiPawns := byColor ∅ ∅
    king := byColor (4, 0) (4, 7)
    countAll := byColor 1 1
    capturesToHand := false
    mustCapture := false
    canCastleK := byColor false false
    canCastleQ := byColor false false
    castleKFile := 6
    castleQFile := 2
    castlingRightsMask := byColor 0 0
    pawnKey := 5 }

/-- `P0` with a different pawn key (forces a probe miss on `T0`). -/
def P1 : Position := { P0 with pawnKey := 7 }

/-- `P0` with a single white pawn on e2. -/
def P3 : Position := { P0 with pawns := byColor {(4, 1)} ∅ }

/-- `P0` with a white pawn on c4 facing black pawns b5, c5, d5. -/
def P4 : Position := { P0 with pawns := byColor {(2, 3)} {(1, 4), (2, 4), (3, 4)} }

/-- `P0` with white pawns a3, b3, b2: the pawn on b3 has a phalanx,
no support and a doubled pawn behind it. -/
def P5 : Position := { P0 with pawns := byColor {(0, 2), (1, 2), (1, 1)} ∅ }

/-- `P0` with a lone white pawn on a5 (a passed pawn). -/
def P6 : Position := { P0 with pawns := byColor {(0, 4)} ∅ }

/-- `P0` with white pawns b4, a2 and a black pawn b5: the white b4 pawn
has a neighbour strictly behind it and a stopper in front. -/
def P8 : Position := { P0 with pawns := byColor {(1, 3), (0, 1)} {(1, 4)} }

/-- `P0` with white pawns b2, a3 and a black pawn b3: white b2 is a
genuine backward pawn. -/
def Pbk : Position := { P0 with pawns := byColor {(1, 1), (0, 2)} {(1, 2)} }

/-- A concrete cache entry storing key 5 and empty data. -/
def E0 : Entry :=
  { key := 5
    scores := fun _ => (0, 0)
    passedPawns := fun _ => ∅
    pawnAttacksSpan := fun _ => ∅
    pawnAttacks := fun _ => ∅
    kingSquares := fun _ => none
    castlingRights := fun _ => 0 }

/-- A concrete four-slot table whose every slot holds `E0`. -/
def T0 : Table := { size := 4, entries := fun _ => E0 }

/-- Every lever is a stopper: the squares a pawn attacks lie inside its
passed-pawn span. -/
theorem lever_subset_stoppers (pos : Position) (us : Color) (s : Sq) :
    leverSet pos us s ⊆ stoppersSet pos us s := by
  intro t ht
  simp only [leverSet, Finset.mem_filter, isPawnAttack] at ht
  obtain ⟨htp, hadj, hstep⟩ := ht
  simp only [stoppersSet, Finset.mem_filter, sameOrAdjFile]
  refine ⟨htp, Or.inr hadj, ?_⟩
  cases us with
  | white => simp only [pawnStepRank] at hstep; simp only [strictlyAheadOf]; omega
  | black => simp only [pawnStepRank] at hstep; simp only [strictlyAheadOf]; omega

/-- Folding `min` from `8` over a nonempty set computes the capped
minimum. -/
theorem fold_min_eq_min_inf {α : Type} [DecidableEq α] (f : α → Nat) (s : Finset α)
    (h : s.Nonempty) : Finset.fold min 8 f s = min 8 (s.inf' h f) := by
  induction h using Finset.Nonempty.cons_induction with
  | singleton a => simp [Nat.min_comm]
  | cons a s ha hs ih =>
      rw [Finset.fold_cons, Finset.inf'_cons, ih]
      rw [Nat.min_left_comm]

/-- C1: `probe` always returns an entry whose stored key equals the
position's pawn key; it returns the stored entry untouched exactly on
the hit condition (matching key, no shogi pawns); otherwise it stores
the new key, recomputes both colors' scores via `evaluate` and writes
the result back into the addressed slot — so a slot reused under a
different key is never returned with the previous scores. -/
theorem c1_probe_contract (t : Table) (pos : Position) :
    ((probe t pos).2.key = pos.pawnKey)
    ∧ (probeHit t pos → probe t pos = (t, t.entries (pos.pawnKey % t.size)))
    ∧ (¬ probeHit t pos → ∀ c, (probe t pos).2.scores c = evaluate pos c)
    ∧ ((t.entries (pos.pawnKey % t.size)).key ≠ pos.pawnKey →
        ∀ c, (probe t pos).2.scores c = evaluate pos c) := by
  by_cases h : probeHit t pos
  · refine ⟨?_, fun _ => ?_, fun hn => absurd h hn, fun hk => absurd h.1 hk⟩
    · simp [probe, h]; exact h.1
    · simp [probe, h]
  · refine ⟨?_, fun hh => absurd hh h, fun _ c => ?_, fun _ c => ?_⟩ <;>
      simp [probe, h, computeEntry]

/-- Witness for C1: on the concrete table `T0`, position `P0` hits and
is returned untouched, while `P1` misses and gets freshly computed
scores. -/
theorem c1_witness :
    probe T0 P0 = (T0, T0.entries (P0.pawnKey % T0.size))
    ∧ (probe T0 P1).2.scores Color.white = evaluate P1 Color.white :=
  ⟨(c1_probe_contract T0 P0).2.1 (by decide),
   (c1_probe_contract T0 P1).2.2.1 (by decide) Color.white⟩

/-- C10: whenever `probe` recomputes (key mismatch or shogi pawns
present), the per-side evaluation has reset `kingSquares` for both
colors to the no-square sentinel. -/
theorem c10_king_squares_reset (t : Table) (pos : Position) (h : ¬ probeHit t pos)
    (c : Color) : (probe t pos).2.kingSquares c = none := by
  simp [probe, h, computeEntry]

/-- Witness for C10: probing `T0` with the mismatching key of `P1`
yields an entry with both king squares reset. -/
theorem c10_witness :
    (probe T0 P1).2.kingSquares Color.white = none
    ∧ (probe T0 P1).2.kingSquares Color.black = none :=
  ⟨c10_king_squares_reset T0 P1 (by decide) Color.white,
   c10_king_squares_reset T0 P1 (by decide) Color.black⟩

/-- On a hit, `probe` returns the table unchanged with the stored
entry. -/
theorem probe_hit_eq (t : Table) (pos : Position) (h : probeHit t pos) :
    probe t pos = (t, t.entries (pos.pawnKey % t.size)) := by
  simp [probe, h]

/-- On a miss, `probe` returns the freshly computed entry. -/
theorem probe_miss_snd (t : Table) (pos : Position) (h : ¬ probeHit t pos) :
    (probe t pos).2 = computeEntry (t.entries (pos.pawnKey % t.size)) pos := by
  simp [probe, h]

/-- `probe` never changes the table capacity. -/
theorem probe_fst_size (t : Table) (pos : Position) : (probe t pos).1.size = t.size := by
  by_cases h : probeHit t pos <;> simp [probe, h]

/-- After a probe, the addressed slot holds exactly the returned entry. -/
theorem probe_fst_entries_idx (t : Table) (pos : Position) :
    (probe t pos).1.entries (pos.pawnKey % t.size) = (probe t pos).2 := by
  by_cases h : probeHit t pos <;> simp [probe, h]

/-- The returned entry always stores the position's pawn key. -/
theorem probe_snd_key (t : Table) (pos : Position) : (probe t pos).2.key = pos.pawnKey := by
  by_cases h : probeHit t pos
  · simp [probe, h]
    exact h.1
  · simp [probe, h, computeEntry]

/-- C9: probing twice in succession on an unchanged position yields
entries with identical scores, passed-pawn, attack and attack-span
bitboards, including when shogi pawns force a recomputation each call. -/
theorem c9_probe_idempotent (t : Table) (pos : Position) (c : Color) :
    (probe (probe t pos).1 pos).2.scores c = (probe t pos).2.scores c
    ∧ (probe (probe t pos).1 pos).2.passedPawns c = (probe t pos).2.passedPawns c
    ∧ (probe (probe t pos).1 pos).2.pawnAttacks c = (probe t pos).2.pawnAttacks c
    ∧ (probe (probe t pos).1 pos).2.pawnAttacksSpan c = (probe t pos).2.pawnAttacksSpan c := by
  by_cases h2 : pos.shogiPawns Color.white = ∅ ∧ pos.shogiPawns Color.black = ∅
  · have hh : probeHit (probe t pos).1 pos := by
      refine ⟨?_, h2.1, h2.2⟩
      rw [probe_fst_size, probe_fst_entries_idx, probe_snd_key]
    rw [probe_hit_eq _ pos hh, probe_fst_size, probe_fst_entries_idx]
    exact ⟨rfl, rfl, rfl, rfl⟩
  · have h : ¬ probeHit t pos := fun hc => h2 ⟨hc.2.1, hc.2.2⟩
    have hh : ¬ probeHit (probe t pos).1 pos := fun hc => h2 ⟨hc.2.1, hc.2.2⟩
    rw [probe_miss_snd _ pos hh, probe_miss_snd t pos h]
    exact ⟨rfl, rfl, rfl, rfl⟩

/-- The distance computation of `do_king_safety` agrees with the capped
minimum-distance description. -/
theorem kingPawnFoldDist_eq_amended (pos : Position) (us : Color) :
    kingPawnFoldDist pos us = minPawnDistAmended pos us := by
  unfold kingPawnFoldDist minPawnDistAmended
  by_cases h : (pos.pawns us).Nonempty
  · rw [if_pos h, dif_pos h]
    by_cases h2 : ∃ p ∈ pos.pawns us, chebyshev (pos.king us) p = 1
    · rw [if_pos h2, if_pos (Finset.filter_nonempty_iff.mpr h2)]
    · rw [if_neg h2, if_neg (fun hc => h2 (Finset.filter_nonempty_iff.mp hc))]
      exact fold_min_eq_min_inf _ _ h
  · rw [if_neg h, dif_neg h]

/-- C2 (amended): `do_king_safety` returns the midgame-best shelter
score minus `(0, 16 × d)` where `d` is the minimum king-to-own-pawn
distance capped at 8, taken as 1 when a pawn is king-adjacent, and as 0
— not 8 — when the side has no pawns at all. -/
theorem c2_amended_king_safety (e : Entry) (pos : Position) (us : Color) :
    (do_king_safety e pos us).2
    = bestShelter pos us - ((0 : Int), 16 * (minPawnDistAmended pos us : Int)) := by
  simp [do_king_safety, kingPawnFoldDist_eq_amended]

/-- Counterexample to C2 as stated: on a position with no white pawns,
`do_king_safety` subtracts nothing, not `(0, 16 × 8)`. -/
theorem c2_counterexample :
    (do_king_safety E0 P0 Color.white).2
    ≠ bestShelter P0 Color.white - ((0 : Int), 16 * (minPawnDistClaim P0 Color.white : Int)) := by
  decide

/-- Counterexample to C3 as stated: scanning the shelter files of `P3`
around a king on d1 gives a different score from the claim's
king-file-distance indexing, so the index used is not the clamped file
distance from the king's file. -/
theorem c3_counterexample :
    evaluate_shelter P3 Color.white (3, 0) ((-32001 : Int), (0 : Int))
    ≠ evaluate_shelterClaimIdx P3 Color.white (3, 0) ((-32001 : Int), (0 : Int)) := by
  decide

/-- C3 (amended): the row index used for each scanned file is the file's
distance from the nearer board edge, clamped to a maximum index of 3. -/
theorem c3_amended_shelter_index (pos : Position) (us : Color) (ksq : Sq) (sh : Score) :
    evaluate_shelter pos us ksq sh = evaluate_shelterAmended pos us ksq sh := rfl

/-- C4 (amended): for on-board pawns, the weak-lever penalty set is the
own pawns that are doubly attacked by enemy pawns, not defended by any
own pawn, and not flagged passed. -/
theorem c4_amended_weak_lever (pos : Position) (us : Color)
    (hp : pos.pawns us ⊆ boardSquares pos) :
    weakLeverSet pos us = weakLeverSpecSet pos us := by
  unfold weakLeverSet weakLeverSpecSet
  apply Finset.filter_congr
  intro p hpp
  have hb : p ∈ boardSquares pos := hp hpp
  simp [attacksOf, Finset.mem_filter, hb]

/-- Witness for C4: the amended description evaluated on the concrete
position `P4`. -/
theorem c4_witness : weakLeverSet P4 Color.white = weakLeverSpecSet P4 Color.white :=
  c4_amended_weak_lever P4 Color.white (by decide)

/-- Counterexample to C4 as stated: in `P4` the white pawn c4 is doubly
attacked, undefended and not passed, so the code subtracts `WeakLever`
once for it — yet c4 attacks two squares, so under "not itself attacking
anything" the claim predicts no penalty at all. -/
theorem c4_counterexample :
    (2, 3) ∈ weakLeverSet P4 Color.white
    ∧ (weakLeverSet P4 Color.white).card = 1
    ∧ (weakLeverClaimSet P4 Color.white).card = 0 := by
  decide

/-- C5 (amended): exactly one of the connected, isolated, backward or
residual branch applies to every pawn, and the doubled penalty
co-occurs with the connected branch precisely when the pawn is doubled,
unsupported and has a phalanx neighbour. -/
theorem c5_classification (pos : Position) (us : Color) (s : Sq) :
    (connBranch pos us s ∨ isoBranch pos us s ∨ backBranch pos us s ∨ noBranch pos us s)
    ∧ ¬ (connBranch pos us s ∧ isoBranch pos us s)
    ∧ ¬ (connBranch pos us s ∧ backBranch pos us s)
    ∧ ¬ (connBranch pos us s ∧ noBranch pos us s)
    ∧ ¬ (isoBranch pos us s ∧ backBranch pos us s)
    ∧ ¬ (isoBranch pos us s ∧ noBranch pos us s)
    ∧ ¬ (backBranch pos us s ∧ noBranch pos us s)
    ∧ (doubledCond pos us s ∧ connBranch pos us s ↔
        (doubledSet pos us s).Nonempty ∧ supportSet pos us s = ∅
        ∧ (phalanxSet pos us s).Nonempty) := by
  unfold connBranch isoBranch backBranch noBranch doubledCond
  have hu : ∀ b : Finset Sq, supportSet pos us s = ∅ →
      ((supportSet pos us s ∪ b).Nonempty ↔ b.Nonempty) := by
    intro b hb
    rw [hb]
    simp
  refine ⟨by tauto, by tauto, by tauto, by tauto, by tauto, by tauto, by tauto, ?_⟩
  constructor
  · rintro ⟨⟨hd, hsup⟩, hc⟩
    exact ⟨hd, hsup, (hu _ hsup).mp hc⟩
  · rintro ⟨hd, hsup, hph⟩
    exact ⟨⟨hd, hsup⟩, (hu _ hsup).mpr hph⟩

/-- Witness for C5: the mutual exclusion instantiated on the concrete
position `P5`. -/
theorem c5_witness : ¬ (connBranch P5 Color.white (1, 2) ∧ isoBranch P5 Color.white (1, 2)) :=
  (c5_classification P5 Color.white (1, 2)).2.1

/-- Counterexample to C5 as stated: in `P5` the white pawn b3 has a
phalanx but no support and a pawn directly behind, so its contribution
carries both the connected bonus (24, 0) and the doubled penalty. -/
theorem c5_counterexample :
    connBranch P5 Color.white (1, 2) ∧ doubledCond P5 Color.white (1, 2)
    ∧ pawnContribution P5 Color.white (1, 2) = ((24 : Int), (0 : Int)) - Doubled := by
  decide

/-- C6: the passed classification is exactly the claim's three-way
disjunction, and a passed pawn is recorded into `passedPawns` precisely
when it is also an own pawn whose forward square is on-board. -/
theorem c6_passed_iff (pos : Position) (us : Color) (s : Sq) :
    (passedP pos us s ↔ passedSpec pos us s)
    ∧ (s ∈ pos.pawns us →
        (s ∈ passedPawnsOf pos us ↔ passedP pos us s ∧ forwardOk pos us s)) := by
  constructor
  · unfold passedP passedSpec
    apply or_congr
    · constructor
      · intro h t ht
        rw [h] at ht
        exact ht
      · intro h
        exact Finset.Subset.antisymm h (lever_subset_stoppers pos us s)
    apply or_congr
    · exact Iff.rfl
    · constructor
      · rintro ⟨hok, hst, hr, hE⟩
        refine ⟨by rw [hst]; simp, hok, by rw [hst]; simp, hr, hE⟩
      · rintro ⟨hcard, hok, hmem, hr, hE⟩
        refine ⟨hok, ?_, hr, hE⟩
        obtain ⟨a, ha⟩ := Finset.card_eq_one.mp hcard
        rw [ha] at hmem ⊢
        simp only [Finset.mem_singleton] at hmem
        rw [hmem]
  · intro hs
    simp [passedPawnsOf, Finset.mem_filter, hs]

/-- Witness for C6: the lone white a5 pawn of `P6` satisfies the claim's
passed condition via the theorem. -/
theorem c6_witness : passedSpec P6 Color.white (0, 4) :=
  (c6_passed_iff P6 Color.white (0, 4)).1.mp (by decide)

/-- C7: whenever support or phalanx is nonempty, the pawn's score
contribution is exactly the spec's connected-bonus formula (with the
independent doubled deduction), ranks read as the source's 0-based
indices. -/
theorem c7_connected_bonus (pos : Position) (us : Color) (s : Sq)
    (h : (supportSet pos us s ∪ phalanxSet pos us s).Nonempty) :
    pawnContribution pos us s = connectedSpecScore pos us s := by
  simp only [pawnContribution, connectedSpecScore, connectedV, if_pos h]

/-- Witness for C7: the formula evaluated on the connected pawn b3 of
`P5`. -/
theorem c7_witness :
    (supportSet P5 Color.white (1, 2) ∪ phalanxSet P5 Color.white (1, 2)).Nonempty
    ∧ pawnContribution P5 Color.white (1, 2) = connectedSpecScore P5 Color.white (1, 2) :=
  ⟨by decide, c7_connected_bonus P5 Color.white (1, 2) (by decide)⟩

/-- C8 (amended): a pawn is backward iff no own pawn on an adjacent file
is strictly behind it, its forward square is on-board, and the stoppers
meet the lever pushes or the immediate forward square. -/
theorem c8_amended_backward (pos : Position) (us : Color) (s : Sq) :
    backwardP pos us s ↔ backwardSpec pos us s := by
  cases us with
  | white =>
      unfold backwardP backwardSpec
      rw [Finset.filter_eq_empty_iff]
      exact Iff.rfl
  | black =>
      unfold backwardP backwardSpec
      rw [Finset.filter_eq_empty_iff]
      exact Iff.rfl

/-- Witness for C8: the white b2 pawn of `Pbk` is backward under the
amended description via the theorem. -/
theorem c8_witness : backwardSpec Pbk Color.white (1, 1) :=
  (c8_amended_backward Pbk Color.white (1, 1)).mp (by decide)

/-- Counterexample to C8 as stated: in `P8` the white b4 pawn has its
only neighbour strictly behind it and a stopper on b5, so the claim's
"no neighbour strictly ahead" reading calls it backward while the code
does not. -/
theorem c8_counterexample :
    ¬ backwardP P8 Color.white (1, 3) ∧ backwardClaim P8 Color.white (1, 3) := by
  decide
